import Mathlib

/-!
A shallow embedding of the incremental-build core of the cargo repository:
the compilation context (`src/cargo/ops/cargo_rustc/context.rs`) and the
fingerprint engine (`src/cargo/ops/cargo_rustc/fingerprint.rs`), together
with theorems checking the frozen claims about them.

Modelling conventions:
* Rust `CargoResult<T>` is `CRes T` (`ok`/`err`); a Rust `panic!`/`.expect`
  is modelled by a distinguished value (`Option.none`, `BuildRes.panicked`,
  or `CargoErr.bug`), as noted at each definition.
* The filesystem is a snapshot `Fs : String → Option FsEntry`; an entry can
  be a readable file with contents and mtime, a file that opens but whose
  read fails (`fileBad`), or a directory.
* `HashMap` becomes an association list; `insert_or_update_with` keeps the
  source's semantics (update in place, append on first insert).
* The recursive requirement walk is given explicit fuel; a dedicated
  theorem shows a fuel of (number of packages + 1) always suffices, which
  is the termination argument of the Rust recursion.
-/

namespace Cargo

/-- Identity of a package: `(name, version, source-id)`; the source id is
abstracted to a numeric key into the source map. -/
structure PackageId where
  name : String
  version : String
  sourceId : Nat
deriving DecidableEq

/-- Profile flags of a target, as exposed by the predicates the core uses
(`is_compile`, `is_test`, `is_doc`, `is_plugin`) plus the `env` tag. -/
structure Profile where
  env : String
  is_compile : Bool
  is_test : Bool
  is_doc : Bool
  is_plugin : Bool
deriving DecidableEq

/-- A compilation target of a package, with its classification predicates. -/
structure Target where
  name : String
  file_stem : String
  is_lib : Bool
  is_bin : Bool
  is_dylib : Bool
  is_rlib : Bool
  profile : Profile
deriving DecidableEq

/-- A package: id, declared targets and root directory. -/
structure Package where
  pid : PackageId
  targets : List Target
  root : String
deriving DecidableEq

/-- Platform disposition of a build (`cargo_rustc::Kind`). -/
inductive Kind where
  | KindPlugin : Kind
  | KindTarget : Kind
deriving DecidableEq

/-- Embeds `context.rs` `PlatformRequirement`. -/
inductive PlatformRequirement where
  | Target : PlatformRequirement
  | Plugin : PlatformRequirement
  | PluginAndTarget : PlatformRequirement
deriving DecidableEq

/-- Embeds `PlatformRequirement::combine` (context.rs:233-241). -/
def PlatformRequirement.combine :
    PlatformRequirement → PlatformRequirement → PlatformRequirement
  | .Target, .Target => .Target
  | .Plugin, .Plugin => .Plugin
  | _, _ => .PluginAndTarget

/-- Embeds `util::Freshness`. -/
inductive Freshness where
  | Fresh : Freshness
  | Dirty : Freshness
deriving DecidableEq

/-- The deferred units of work built by the fingerprint module; the closures
of the source are realized as tagged variants carrying their captured
state. -/
inductive Work where
  | WriteFingerprint : String → String → Work
  | Promote : List (String × String) → Work
  | Mkdir : String → Work
  | Noop : Work
deriving DecidableEq

/-- Error values of `CargoResult`; a `bug` models a Rust panic surfaced from
`.expect`/`assert!`. -/
inductive CargoErr where
  | internal : String → CargoErr
  | ioFail : CargoErr
  | bug : String → CargoErr
deriving DecidableEq

/-- Embeds `CargoResult<T>`. -/
inductive CRes (α : Type) where
  | ok : α → CRes α
  | err : CargoErr → CRes α
deriving DecidableEq

def CRes.isOk {α : Type} : CRes α → Bool
  | .ok _ => true
  | .err _ => false

/-- An entry of the modelled filesystem snapshot: a readable file with
contents and mtime, a file that opens but whose read fails with an I/O
error (carrying its stat mtime), or a directory. -/
inductive FsEntry where
  | fileOk : String → Nat → FsEntry
  | fileBad : Nat → FsEntry
  | dirE : FsEntry
deriving DecidableEq

/-- Filesystem snapshot: absolute path to entry; `none` means `File::open`
and `stat` fail on that path. -/
abbrev Fs := String → Option FsEntry

/-- Embeds `stat(..).modified` of an entry (directories report 0; never compared). -/
def entMtime : FsEntry → Nat
  | .fileOk _ m => m
  | .fileBad m => m
  | .dirE => 0

/-- Embeds `Path::join`. -/
def pjoin (a b : String) : String := a ++ "/" ++ b

/-- The proxied layout view used through `cx.layout(kind)`: the root and
fingerprint directories of the new build plus the mirrored old ones.
The `Layout`/`LayoutProxy` code lives in `layout.rs` outside this tree;
only the resolved paths it hands back matter to the fingerprint engine,
so the proxy is modelled as a record of those paths. -/
structure LayoutProxy where
  root : String
  old_root : String
  fingerprint : String
  old_fingerprint : String
deriving DecidableEq

/-- The compilation context (context.rs:18-33).  The `requirements` map is
the only field the requirement walk mutates; it is threaded explicitly
through the walk functions below, so it is not a field here. -/
structure Context where
  primary : Bool
  rustc_version : String
  env : String
  hostLayout : LayoutProxy
  targetLayout : Option LayoutProxy
  host_dylib : String × String
  target_dylib : String × String
  target_exe : String
  resolve : PackageId → Option (List PackageId)
  package_set : List Package
  sources : Nat → Option (Package → CRes String)

/-- Embeds `Context::layout` (context.rs:159-166). -/
def Context.layout (cx : Context) (kind : Kind) : LayoutProxy :=
  match kind with
  | .KindPlugin => cx.hostLayout
  | .KindTarget => cx.targetLayout.getD cx.hostLayout

/-- Embeds `Context::dylib` (context.rs:172-175). -/
def Context.dylib (cx : Context) (kind : Kind) : String × String :=
  if kind = Kind.KindPlugin then cx.host_dylib else cx.target_dylib

/-- Embeds `Context::is_relevant_target` (context.rs:221-230). -/
def is_relevant_target (cx : Context) (target : Target) : Bool :=
  target.is_lib &&
    match cx.env with
    | "doc" | "test" => target.profile.is_compile
    | "doc-all" => target.profile.is_compile || target.profile.is_doc
    | _ => target.profile.env == cx.env

/-- Embeds `Context::get_package` (context.rs:215-219); the source `.expect`s the
package ("Should have found package"), so an absent package is the panic
case, modelled as `none`. -/
def get_package (cx : Context) (id : PackageId) : Option Package :=
  cx.package_set.find? (fun pkg => id = pkg.pid)

/-- The `deps.map(|pkg_id| self.get_package(pkg_id))` stage of
`dep_targets`: looks every dependency id up, propagating the panic
(`none`) if any is missing from the package set. -/
def get_packages (cx : Context) : List PackageId → Option (List Package)
  | [] => some []
  | pid :: rest =>
    match get_package cx pid with
    | none => none
    | some p =>
      match get_packages cx rest with
      | none => none
      | some ps => some (p :: ps)

/-- Embeds `Context::dep_targets` (context.rs:201-212): an unknown package id in
the resolver yields the empty vector; each dependency package contributes
its first relevant target, or nothing. `none` is the `get_package` panic. -/
def dep_targets (cx : Context) (pkg : Package) : Option (List (Package × Target)) :=
  match cx.resolve pkg.pid with
  | none => some []
  | some deps =>
    match get_packages cx deps with
    | none => none
    | some pkgs =>
      some (pkgs.filterMap (fun p =>
        (p.targets.find? (fun t => is_relevant_target cx t)).map (fun t => (p, t))))

/-- Key of the requirements map: `(PackageId, target-name)`. -/
abbrev ReqKey := PackageId × String

/-- The requirements `HashMap`, modelled as an association list with unique
keys (first insert appends, updates rewrite in place). -/
abbrev ReqMap := List (ReqKey × PlatformRequirement)

/-- Lookup in the requirements map. -/
def reqFind (m : ReqMap) (k : ReqKey) : Option PlatformRequirement :=
  (m.find? (fun e => e.1 = k)).map Prod.snd

/-- Embeds `HashMap::insert_or_update_with(key, req, |_, v| *v = v.combine(req))`
as used at context.rs:135-137. -/
def insert_or_update (m : ReqMap) (k : ReqKey) (v : PlatformRequirement) : ReqMap :=
  match m.find? (fun e => e.1 = k) with
  | none => m ++ [(k, v)]
  | some _ => m.map (fun e => if e.1 = k then (e.1, e.2.combine v) else e)

/-- Result of a fuelled run of the requirement walk: `panicked` is the
`get_package` panic, `fuelOut` marks fuel exhaustion (never reached with
enough fuel, see the termination theorem). -/
inductive BuildRes (α : Type) where
  | ok : α → BuildRes α
  | panicked : BuildRes α
  | fuelOut : BuildRes α
deriving DecidableEq

def BuildRes.map {α β : Type} (f : α → β) : BuildRes α → BuildRes β
  | .ok a => .ok (f a)
  | .panicked => .panicked
  | .fuelOut => .fuelOut

def BuildRes.terminated {α : Type} : BuildRes α → Bool
  | .fuelOut => false
  | _ => true

/-- The `for &(pkg, dep) in self.dep_targets(pkg).iter()` loop of
`build_requirements` (context.rs:139-141), threading the requirements map
through the recursive `step` on each dependency pair. -/
def runChildren (step : Package → Target → ReqMap → BuildRes ReqMap) :
    List (Package × Target) → ReqMap → BuildRes ReqMap
  | [], reqs => .ok reqs
  | (p, t) :: rest, reqs =>
    match step p t reqs with
    | .ok reqs2 => runChildren step rest reqs2
    | .panicked => .panicked
    | .fuelOut => .fuelOut

/-- Embeds `Context::build_requirements` (context.rs:128-144).  The mutable
`visiting` set (inserted on entry, removed on exit) is passed functionally:
a child sees its parents on the path and its own mutations do not escape,
exactly as in the source.  `requirements` is threaded as `reqs`.  The
`fuel` argument bounds the recursion depth. -/
def build_requirements (cx : Context) :
    Nat → Package → Target → PlatformRequirement → List PackageId → ReqMap →
    BuildRes ReqMap
  | 0, _, _, _, _, _ => .fuelOut
  | Nat.succ fuel, pkg, target, req, visiting, reqs =>
    if pkg.pid ∈ visiting then .ok reqs
    else
      let req2 := if target.profile.is_plugin then PlatformRequirement.Plugin else req
      let reqs2 := insert_or_update reqs (pkg.pid, target.name) req2
      match dep_targets cx pkg with
      | none => .panicked
      | some deps =>
        runChildren (fun p t r => build_requirements cx fuel p t req2 (pkg.pid :: visiting) r)
          deps reqs2

/-- The targets the `prepare` loop walks (context.rs:120-122), paired with
their owning package. -/
def walkList (pkg : Package) : List (Package × Target) :=
  (pkg.targets.filter (fun t => t.profile.is_compile)).map (fun t => (pkg, t))

/-- The requirement-walk half of `Context::prepare` (context.rs:120-123):
one walk per compile-profile target of `pkg`, each with a fresh visiting
set, accumulating into the requirements map (initially empty). -/
def prepare_requirements (cx : Context) (fuel : Nat) (pkg : Package) : BuildRes ReqMap :=
  runChildren (fun p t r => build_requirements cx fuel p t PlatformRequirement.Target [] r)
    (walkList pkg) []

/-- The sequence of `(key, effective-requirement)` processing events of a
requirement walk, in DFS order: one entry per pair the walk actually
processes (its "DFS entry paths"). -/
abbrev Trace := List (ReqKey × PlatformRequirement)

/-- Replaying a trace against a requirements map: each event performs the
source's `insert_or_update_with` combine. -/
def applyTrace (m : ReqMap) (tr : Trace) : ReqMap :=
  tr.foldl (fun acc e => insert_or_update acc e.1 e.2) m

/-- The effective requirements recorded for one key in a trace. -/
def occAt (k : ReqKey) (tr : Trace) : List PlatformRequirement :=
  tr.filterMap (fun e => if e.1 = k then some e.2 else none)

/-- The lattice join (left fold of `combine`) of a list of requirements;
`none` for the empty list. -/
def joinL : List PlatformRequirement → Option PlatformRequirement
  | [] => none
  | a :: rest => some (rest.foldl PlatformRequirement.combine a)

/-- Trace analogue of `runChildren`: concatenates the children's traces. -/
def runChildrenT (step : Package → Target → BuildRes Trace) :
    List (Package × Target) → BuildRes Trace
  | [] => .ok []
  | (p, t) :: rest =>
    match step p t with
    | .ok tr1 =>
      match runChildrenT step rest with
      | .ok tr2 => .ok (tr1 ++ tr2)
      | .panicked => .panicked
      | .fuelOut => .fuelOut
    | .panicked => .panicked
    | .fuelOut => .fuelOut

/-- Trace analogue of `build_requirements`: same control flow, but records
the processing events instead of mutating the map. -/
def req_trace (cx : Context) :
    Nat → Package → Target → PlatformRequirement → List PackageId → BuildRes Trace
  | 0, _, _, _, _ => .fuelOut
  | Nat.succ fuel, pkg, target, req, visiting =>
    if pkg.pid ∈ visiting then .ok []
    else
      let req2 := if target.profile.is_plugin then PlatformRequirement.Plugin else req
      match dep_targets cx pkg with
      | none => .panicked
      | some deps =>
        (runChildrenT (fun p t => req_trace cx fuel p t req2 (pkg.pid :: visiting)) deps).map
          (fun trs => ((pkg.pid, target.name), req2) :: trs)

/-- Trace analogue of `prepare_requirements`. -/
def prepare_trace (cx : Context) (fuel : Nat) (pkg : Package) : BuildRes Trace :=
  runChildrenT (fun p t => req_trace cx fuel p t PlatformRequirement.Target []) (walkList pkg)

/-- Embeds `Context::target_filenames` (context.rs:178-197).  The source ends with
`assert!(ret.len() > 0)`; the panic on an empty result is modelled as
`none`. -/
def target_filenames (cx : Context) (target : Target) : Option (List String) :=
  let stem := target.file_stem
  let ret : List String :=
    if target.is_bin || target.profile.is_test then
      [stem ++ cx.target_exe]
    else
      (if target.is_dylib then
        let kind := if target.profile.is_plugin then Kind.KindPlugin else Kind.KindTarget
        [(cx.dylib kind).1 ++ stem ++ (cx.dylib kind).2]
      else []) ++
      (if target.is_rlib then ["lib" ++ stem ++ ".rlib"] else [])
  if ret.length > 0 then some ret else none

/-- Lowercase-hex rendering of a natural (`util::to_hex`). -/
def toHexStr (n : Nat) : String := String.mk (Nat.toDigits 16 n)

/-- Modelled stand-in for the std `SipHasher::new_with_keys(0,0)` 128-bit
hash, which lives outside this repository: a deterministic 64-bit string
hash.  Only determinism in the hashed data matters to the claims. -/
def strHash (s : String) : Nat :=
  s.data.foldl (fun h c => (h * 131 + c.toNat) % 18446744073709551616) 5381

/-- Serialization of a profile for hashing (the Rust `Hash` derivation
covers every field). -/
def serializeProfile (p : Profile) : String :=
  p.env ++ "," ++ toString p.is_compile ++ toString p.is_test ++
    toString p.is_doc ++ toString p.is_plugin

/-- Serialization of a target for hashing: name, stem, kinds and profile,
mirroring the derived `Hash` on `Target`. -/
def serializeTarget (t : Target) : String :=
  t.name ++ "|" ++ t.file_stem ++ "|" ++ toString t.is_lib ++ toString t.is_bin ++
    toString t.is_dylib ++ toString t.is_rlib ++ "|" ++ serializeProfile t.profile

/-- The two shapes of data `prepare_target` hashes: a bare target
(non-doc), or a target paired with the package source fingerprint (doc). -/
inductive HashInput where
  | targetOnly : Target → HashInput
  | targetPkg : Target → String → HashInput
deriving DecidableEq

def serializeInput : HashInput → String
  | .targetOnly t => serializeTarget t
  | .targetPkg t fp => serializeTarget t ++ "&" ++ fp

/-- Embeds `mk_fingerprint` (fingerprint.rs:192-195): hash of
`(rustc_version, data)`, emitted as lowercase hex. -/
def mk_fingerprint (cx : Context) (d : HashInput) : String :=
  toHexStr (strHash (cx.rustc_version ++ "#" ++ serializeInput d))

/-- Embeds `util::hex::short_hash` of a `PackageId` (outside this repository);
a deterministic stand-in, used only to form directory names. -/
def short_hash (id : PackageId) : String :=
  toHexStr (strHash (id.name ++ "@" ++ id.version ++ "@" ++ toString id.sourceId))

/-- Embeds `dirs` (fingerprint.rs:159-166): the (old, new) fingerprint directories
for a package. -/
def dirs (cx : Context) (pkg : Package) (kind : Kind) : String × String :=
  let dirname := pkg.pid.name ++ "-" ++ short_hash pkg.pid
  (pjoin (cx.layout kind).old_fingerprint dirname,
   pjoin (cx.layout kind).fingerprint dirname)

/-- Embeds `filename` (fingerprint.rs:239-249). -/
def filename (target : Target) : String :=
  let kindStr := if target.is_lib then ("lib") else ("bin")
  let flavor :=
    if target.profile.is_test then ("test-")
    else if target.profile.is_doc then ("doc-")
    else ("")
  flavor ++ kindStr ++ "-" ++ target.name

/-- Embeds `dep_info_loc` (fingerprint.rs:169-174). -/
def dep_info_loc (cx : Context) (pkg : Package) (target : Target) (kind : Kind) :
    String × String :=
  let old := (dirs cx pkg kind).1
  let new := (dirs cx pkg kind).2
  (pjoin old ("dep-" ++ filename target), pjoin new ("dep-" ++ filename target))

/-- Embeds `is_fresh` (fingerprint.rs:176-188): a failed `File::open` is recovered
as `Ok(false)`; a failed `read_to_string` on an opened file is propagated
through `try!` as an error. -/
def is_fresh (fs : Fs) (loc : String) (new_fingerprint : String) : CRes Bool :=
  match fs loc with
  | none => .ok false
  | some (.fileOk old_fingerprint _) => .ok (old_fingerprint = new_fingerprint)
  | some (.fileBad _) => .err .ioFail
  | some .dirE => .err .ioFail

/-- First line of a file's contents as the buffered reader yields it
(`lines().next()`): `none` when the contents are empty.  The trailing
newline is dropped here; the source keeps it but trims every token it
later extracts, so the two agree. -/
def firstLine (s : String) : Option (List Char) :=
  match s.data with
  | [] => none
  | l => some (l.takeWhile (fun c => c ≠ '\n'))

/-- Embeds `line.find_str(": ")` followed by `line.slice_from(pos + 2)`: the text
after the first `": "` occurrence, or `none` if there is none. -/
def afterSep : List Char → Option (List Char)
  | [] => none
  | ':' :: ' ' :: rest => some rest
  | _ :: rest => afterSep rest

/-- ASCII whitespace, as `str::trim` strips on the dep-info tokens. -/
def isWs (c : Char) : Bool := c = ' ' || c = '\t' || c = '\n' || c = '\r'

def trimChars (l : List Char) : List Char :=
  ((l.dropWhile isWs).reverse.dropWhile isWs).reverse

/-- Embeds `deps.split(' ')`. -/
def splitSp : List Char → List (List Char)
  | [] => [[]]
  | c :: rest =>
    if c = ' ' then [] :: splitSp rest
    else
      match splitSp rest with
      | [] => [[c]]
      | t :: ts => (c :: t) :: ts

/-- The input-path tokens of a dep-info tail:
`deps.split(' ').map(|s| s.trim()).filter(|s| !s.is_empty())`. -/
def depTokens (l : List Char) : List (List Char) :=
  ((splitSp l).map trimChars).filter (fun t => !t.isEmpty)

/-- The `for file in deps...` loop of `calculate_target_fresh`
(fingerprint.rs:210-219): every listed input must exist under the package
root with mtime at most the dep-info's mtime. -/
def inputs_fresh (fs : Fs) (root : String) (refMtime : Nat) : List (List Char) → Bool
  | [] => true
  | f :: rest =>
    match fs (pjoin root (String.mk f)) with
    | some e => if entMtime e ≤ refMtime then inputs_fresh fs root refMtime rest else false
    | none => false

/-- Embeds `calculate_target_fresh` (fingerprint.rs:197-222). -/
def calculate_target_fresh (fs : Fs) (pkg : Package) (dep_info : String) : CRes Bool :=
  match fs dep_info with
  | none => .ok false
  | some (.fileBad _) => .ok false
  | some .dirE => .ok false
  | some (.fileOk contents mtime) =>
    match firstLine contents with
    | none => .ok false
    | some line =>
      match afterSep line with
      | none => .err (.internal ("dep-info not in an understood format: " ++ dep_info))
      | some deps => .ok (inputs_fresh fs pkg.root mtime (depTokens deps))

/-- Embeds `calculate_pkg_fingerprint` (fingerprint.rs:231-237); the missing-source
`.expect` panic is the `bug` error. -/
def calculate_pkg_fingerprint (cx : Context) (pkg : Package) : CRes String :=
  match cx.sources pkg.pid.sourceId with
  | none => .err (.bug ("Missing package source"))
  | some src => src pkg

/-- The `rustc_fingerprint` computed at fingerprint.rs:61-65: over
`(rustc_version, (target, pkg_fingerprint))` for doc targets, over
`(rustc_version, target)` otherwise. -/
def rustc_fingerprint_for (cx : Context) (pkg : Package) (target : Target) : CRes String :=
  if target.profile.is_doc then
    match calculate_pkg_fingerprint cx pkg with
    | .ok pf => .ok (mk_fingerprint cx (.targetPkg target pf))
    | .err e => .err e
  else
    .ok (mk_fingerprint cx (.targetOnly target))

/-- A `Preparation` (fingerprint.rs:22). -/
abbrev Preparation := Freshness × Work × Work

/-- Embeds `prepare` (fingerprint.rs:141-156): assemble the freshness flag and the
two deferred work units. -/
def prepare (is_fresh : Bool) (loc : String) (fingerprint : String)
    (to_copy : List (String × String)) : Preparation :=
  (if is_fresh then Freshness.Fresh else Freshness.Dirty,
   Work.WriteFingerprint loc fingerprint,
   Work.Promote to_copy)

/-- Embeds `prepare_target` (fingerprint.rs:42-80). -/
def prepare_target (cx : Context) (fs : Fs) (pkg : Package) (target : Target)
    (kind : Kind) : CRes Preparation :=
  let old := (dirs cx pkg kind).1
  let new := (dirs cx pkg kind).2
  let old_loc := pjoin old (filename target)
  let new_loc := pjoin new (filename target)
  let doc := target.profile.is_doc
  let old_dep_info := (dep_info_loc cx pkg target kind).1
  let new_dep_info := (dep_info_loc cx pkg target kind).2
  match (if doc then CRes.ok true else calculate_target_fresh fs pkg old_dep_info) with
  | .err e => .err e
  | .ok are_files_fresh =>
    match rustc_fingerprint_for cx pkg target with
    | .err e => .err e
    | .ok rustc_fingerprint =>
      match is_fresh fs old_loc rustc_fingerprint with
      | .err e => .err e
      | .ok is_rustc_fresh =>
        let layout := cx.layout kind
        if doc then
          .ok (prepare (is_rustc_fresh && are_files_fresh) new_loc rustc_fingerprint
            [(old_loc, new_loc)])
        else
          match target_filenames cx target with
          | none => .err (.bug ("assertion failed: ret.len() > 0"))
          | some names =>
            .ok (prepare (is_rustc_fresh && are_files_fresh) new_loc rustc_fingerprint
              ([(old_loc, new_loc), (old_dep_info, new_dep_info)] ++
               names.map (fun n => (pjoin layout.old_root n, pjoin layout.root n))))

/-- Embeds `prepare_init` (fingerprint.rs:128-137): two work units, each a plain
(single-level, non-recursive) `fs::mkdir` of the same new fingerprint
directory. -/
def prepare_init (cx : Context) (pkg : Package) (kind : Kind) : Work × Work :=
  let new1 := (dirs cx pkg kind).2
  (Work.Mkdir new1, Work.Mkdir new1)

/-- The freshness component of a successful preparation. -/
def freshOf (r : CRes Preparation) : Option Freshness :=
  match r with
  | .ok p => some p.1
  | .err _ => none

/-- Parent directory of a path (text up to the last `/`). -/
def parentPath (p : String) : String :=
  String.mk (((p.data.reverse.dropWhile (fun c => c ≠ '/')).drop 1).reverse)

def fsUpdate (fs : Fs) (p : String) (e : FsEntry) : Fs :=
  fun q => if q = p then some e else fs q

def fsRemove (fs : Fs) (p : String) : Fs :=
  fun q => if q = p then none else fs q

/-- Embeds `std::io::fs::mkdir` semantics (`mkdir(2)`): fails if the path already
exists or the parent is not an existing directory; not recursive. -/
def fsMkdir (fs : Fs) (p : String) : CRes Fs :=
  match fs p with
  | some _ => .err .ioFail
  | none =>
    match fs (parentPath p) with
    | some FsEntry.dirE => .ok (fsUpdate fs p FsEntry.dirE)
    | _ => .err .ioFail

/-- Embeds `fs::rename` over the promote pairs, in order (fingerprint.rs:148-153). -/
def runRenames (fs : Fs) : List (String × String) → CRes Fs
  | [] => .ok fs
  | (src, dst) :: rest =>
    match fs src with
    | none => .err .ioFail
    | some e => runRenames (fsUpdate (fsRemove fs src) dst e) rest

/-- Execute a deferred work unit against a filesystem snapshot. -/
def runWork (w : Work) (fs : Fs) : CRes Fs :=
  match w with
  | .Mkdir p => fsMkdir fs p
  | .Noop => .ok fs
  | .WriteFingerprint loc fp => .ok (fsUpdate fs loc (FsEntry.fileOk fp 0))
  | .Promote ps => runRenames fs ps

/-! ### Concrete fixtures used by witnesses and counterexamples -/

def pidA : PackageId := ⟨"a", "1", 0⟩
def pidP : PackageId := ⟨"p", "1", 0⟩
def pidU : PackageId := ⟨"u", "1", 0⟩

/-- A plain library profile in env `"x"`. -/
def profLib : Profile := ⟨"x", true, false, false, false⟩

/-- A plugin library profile in env `"x"`. -/
def profPlg : Profile := ⟨"x", true, false, false, true⟩

/-- A doc profile in env `"x"`. -/
def profDoc : Profile := ⟨"x", true, false, true, false⟩

def tA : Target := ⟨"a", "a", true, false, false, true, profLib⟩
def tP : Target := ⟨"p", "p", true, false, true, false, profPlg⟩
def tU : Target := ⟨"u", "u", true, false, false, true, profLib⟩
def tDoc : Target := ⟨"adoc", "adoc", true, false, false, true, profDoc⟩

def pkgA : Package := ⟨pidA, [tA], "ra"⟩
def pkgP : Package := ⟨pidP, [tP], "rp"⟩
def pkgU : Package := ⟨pidU, [tU], "ru"⟩
def pkgDoc : Package := ⟨pidA, [tDoc], "ra"⟩
def pkgLone : Package := ⟨⟨"lone", "1", 0⟩, [tU], "rl"⟩

def layoutW : LayoutProxy := ⟨"root", "root.old", "root/fp", "root.old/fp"⟩

/-- The plugin-diamond scenario: `a → p`, `a → u`, `p → u`, with `p` a
plugin, so `u` is reached both Target- and Plugin-classified. -/
def cxW : Context :=
  { primary := false, rustc_version := "rustc 0.12", env := "x",
    hostLayout := layoutW, targetLayout := none,
    host_dylib := ("lib", ".dylib"), target_dylib := ("lib", ".so"), target_exe := "",
    resolve := fun id =>
      if id = pidA then some [pidP, pidU]
      else if id = pidP then some [pidU]
      else if id = pidU then some []
      else none,
    package_set := [pkgA, pkgP, pkgU],
    sources := fun sid => if sid = 0 then some (fun _ => CRes.ok ("srcfp")) else none }

/-- Requirements map `prepare_requirements cxW 5 pkgA` produces. -/
def mW : ReqMap :=
  [((pidA, "a"), PlatformRequirement.Target), ((pidP, "p"), PlatformRequirement.Plugin),
   ((pidU, "u"), PlatformRequirement.PluginAndTarget)]

/-- Trace `prepare_trace cxW 5 pkgA` produces. -/
def trW : Trace :=
  [((pidA, "a"), PlatformRequirement.Target), ((pidP, "p"), PlatformRequirement.Plugin),
   ((pidU, "u"), PlatformRequirement.Plugin), ((pidU, "u"), PlatformRequirement.Target)]

def pidA3 : PackageId := ⟨"a3", "1", 0⟩
def pidB3 : PackageId := ⟨"b3", "1", 0⟩

/-- A binary target of package `a3` (not a lib, so never picked as a
dependency target). -/
def tBin : Target := ⟨"abin", "abin", false, true, false, false, profLib⟩

def tALib : Target := ⟨"alib", "alib", true, false, false, true, profLib⟩
def tBLib : Target := ⟨"blib", "blib", true, false, false, true, profLib⟩

def pkgA3 : Package := ⟨pidA3, [tBin, tALib], "ra3"⟩
def pkgB3 : Package := ⟨pidB3, [tBLib], "rb3"⟩

/-- The two-package cycle `a3 ⇄ b3`: a walk started at `(a3, abin)` comes
back to `a3` at its other target `alib`. -/
def cx3 : Context :=
  { primary := false, rustc_version := "rustc 0.12", env := "x",
    hostLayout := layoutW, targetLayout := none,
    host_dylib := ("lib", ".dylib"), target_dylib := ("lib", ".so"), target_exe := "",
    resolve := fun id =>
      if id = pidA3 then some [pidB3]
      else if id = pidB3 then some [pidA3]
      else none,
    package_set := [pkgA3, pkgB3],
    sources := fun sid => if sid = 0 then some (fun _ => CRes.ok ("srcfp")) else none }

/-- Map produced by the single walk from `(a3, abin)`. -/
def m3 : ReqMap :=
  [((pidA3, "abin"), PlatformRequirement.Target), ((pidB3, "blib"), PlatformRequirement.Target)]

/-- Filesystem for the C1 witness: the old fingerprint file of the doc
target holds exactly the newly computed fingerprint. -/
def okStr : CRes String → String
  | .ok s => s
  | .err _ => ""

def fs1 : Fs :=
  fun q =>
    if q = pjoin (dirs cxW pkgDoc Kind.KindTarget).1 (filename tDoc) then
      some (FsEntry.fileOk (okStr (rustc_fingerprint_for cxW pkgDoc tDoc)) 7)
    else none

/-- Filesystem for the C7 witness: a dep-info file listing inputs `a` and
`b`, where `b` is newer than the dep-info. -/
def fs7 : Fs :=
  fun q =>
    if q = "di" then some (FsEntry.fileOk ("out: a b") 2)
    else if q = pjoin ("ru") ("a") then some (FsEntry.fileOk ("aa") 1)
    else if q = pjoin ("ru") ("b") then some (FsEntry.fileOk ("bb") 3)
    else none

/-- Filesystem for the C7 witness, with `b` old enough to be fresh. -/
def fs7b : Fs :=
  fun q =>
    if q = "di" then some (FsEntry.fileOk ("out: a b") 2)
    else if q = pjoin ("ru") ("a") then some (FsEntry.fileOk ("aa") 1)
    else if q = pjoin ("ru") ("b") then some (FsEntry.fileOk ("bb") 2)
    else none

/-- Filesystem for the C8 counterexample: the fingerprint file opens but
reading it fails. -/
def fs8 : Fs :=
  fun q => if q = "fp" then some (FsEntry.fileBad 0) else none

/-- Filesystem for the C9 counterexample: the new fingerprint directory
already exists. -/
def fs9 : Fs :=
  fun q => if q = (dirs cxW pkgA Kind.KindTarget).2 then some FsEntry.dirE else none

/-- Filesystem for the C9 witness: only the parent of the new fingerprint
directory exists. -/
def fs9p : Fs :=
  fun q => if q = layoutW.fingerprint then some FsEntry.dirE else none

/-! ### Helper lemmas about the requirements map and the walk -/

theorem reqFind_insert (m : ReqMap) (k k' : ReqKey) (v : PlatformRequirement) :
    reqFind (insert_or_update m k v) k' =
      if k' = k then
        some (match reqFind m k with
          | none => v
          | some w => w.combine v)
      else reqFind m k' := by
  unfold insert_or_update reqFind
  cases hf : m.find? (fun e => decide (e.1 = k)) with
  | none =>
    by_cases hk : k' = k
    · subst hk
      rw [if_pos rfl, List.find?_append, hf]
      simp
    · rw [if_neg hk, List.find?_append]
      have h1 : List.find? (fun e => decide (e.1 = k')) [(k, v)] = none := by
        rw [List.find?_cons_of_neg]
        · rfl
        · simp only [decide_eq_true_eq]
          exact fun h => hk h.symm
      rw [h1]
      cases m.find? (fun e => decide (e.1 = k')) <;> rfl
  | some e0 =>
    have he0 : e0.1 = k := by
      have h := List.find?_some hf
      simpa using h
    have hmap : ((fun e : ReqKey × PlatformRequirement => decide (e.1 = k')) ∘
        (fun e : ReqKey × PlatformRequirement =>
          if e.1 = k then (e.1, e.2.combine v) else e)) =
        (fun e : ReqKey × PlatformRequirement => decide (e.1 = k')) := by
      funext e
      by_cases h : e.1 = k <;> simp [h]
    rw [List.find?_map, hmap]
    by_cases hk : k' = k
    · subst hk
      rw [if_pos rfl, hf]
      simp [he0]
    · rw [if_neg hk]
      cases hg : m.find? (fun e => decide (e.1 = k')) with
      | none => rfl
      | some e1 =>
        have he1 : e1.1 = k' := by
          have h := List.find?_some hg
          simpa using h
        have hne : ¬ e1.1 = k := by rw [he1]; exact hk
        simp [hne]

theorem applyTrace_nil (m : ReqMap) : applyTrace m [] = m := rfl

theorem applyTrace_cons (m : ReqMap) (e : ReqKey × PlatformRequirement) (tr : Trace) :
    applyTrace m (e :: tr) = applyTrace (insert_or_update m e.1 e.2) tr := rfl

theorem applyTrace_append (m : ReqMap) (tr1 tr2 : Trace) :
    applyTrace m (tr1 ++ tr2) = applyTrace (applyTrace m tr1) tr2 :=
  List.foldl_append ..

theorem occAt_cons (k : ReqKey) (e : ReqKey × PlatformRequirement) (tr : Trace) :
    occAt k (e :: tr) = if e.1 = k then e.2 :: occAt k tr else occAt k tr := by
  by_cases h : e.1 = k <;> simp [occAt, List.filterMap_cons, h]

/-- The value the map holds at a key after replaying a trace is the fold of
`combine` over the recorded effectives at that key, seeded by the prior
value if any. -/
theorem reqFind_applyTrace : ∀ (tr : Trace) (m : ReqMap) (k : ReqKey),
    reqFind (applyTrace m tr) k =
      match reqFind m k with
      | none => joinL (occAt k tr)
      | some w => some ((occAt k tr).foldl PlatformRequirement.combine w) := by
  intro tr
  induction tr with
  | nil =>
    intro m k
    cases h : reqFind m k <;> simp [applyTrace_nil, occAt, joinL, h]
  | cons e tr ih =>
    intro m k
    rw [applyTrace_cons, ih, reqFind_insert, occAt_cons]
    by_cases hk : k = e.1
    · subst hk
      simp only [if_pos rfl]
      cases hm : reqFind m e.1 <;> simp [hm, joinL, List.foldl_cons]
    · have he : e.1 ≠ k := fun h => hk h.symm
      rw [if_neg hk, if_neg he]

theorem BuildRes.map_map {α β γ : Type} (f : α → β) (g : β → γ) (x : BuildRes α) :
    (x.map f).map g = x.map (fun a => g (f a)) := by
  cases x <;> rfl

theorem BuildRes.map_congr {α β : Type} {f g : α → β} (x : BuildRes α)
    (h : ∀ a, f a = g a) : x.map f = x.map g := by
  cases x <;> simp [BuildRes.map, h]

theorem runChildren_eq_trace
    (step : Package → Target → ReqMap → BuildRes ReqMap)
    (stepT : Package → Target → BuildRes Trace)
    (hpt : ∀ p t r, step p t r = (stepT p t).map (fun tr => applyTrace r tr)) :
    ∀ (deps : List (Package × Target)) (reqs : ReqMap),
      runChildren step deps reqs =
        (runChildrenT stepT deps).map (fun tr => applyTrace reqs tr) := by
  intro deps
  induction deps with
  | nil => intro reqs; simp [runChildren, runChildrenT, applyTrace_nil, BuildRes.map]
  | cons pt rest ih =>
    intro reqs
    obtain ⟨p, t⟩ := pt
    simp only [runChildren, runChildrenT]
    rw [hpt]
    cases h1 : stepT p t with
    | ok tr1 =>
      simp only [BuildRes.map]
      rw [ih]
      cases h2 : runChildrenT stepT rest <;>
        simp [BuildRes.map, applyTrace_append]
    | panicked => simp [BuildRes.map]
    | fuelOut => simp [BuildRes.map]

/-- Running the requirement walk over a map is replaying its trace. -/
theorem build_eq_trace (cx : Context) : ∀ (fuel : Nat) (pkg : Package) (target : Target)
    (req : PlatformRequirement) (visiting : List PackageId) (reqs : ReqMap),
    build_requirements cx fuel pkg target req visiting reqs =
      (req_trace cx fuel pkg target req visiting).map (fun tr => applyTrace reqs tr) := by
  intro fuel
  induction fuel with
  | zero => intro pkg target req visiting reqs; rfl
  | succ fuel ih =>
    intro pkg target req visiting reqs
    by_cases hv : pkg.pid ∈ visiting
    · simp [build_requirements, req_trace, hv, BuildRes.map, applyTrace_nil]
    · cases hd : dep_targets cx pkg with
      | none => simp [build_requirements, req_trace, hv, hd, BuildRes.map]
      | some deps =>
        simp only [build_requirements, req_trace, hv, if_false, hd]
        rw [runChildren_eq_trace _ _ (fun p t r => ih p t _ _ r)]
        rw [BuildRes.map_map]
        exact BuildRes.map_congr _ (fun tr =>
          (applyTrace_cons reqs
            ((pkg.pid, target.name),
              if target.profile.is_plugin then PlatformRequirement.Plugin else req)
            tr).symm)

theorem prepare_eq_trace (cx : Context) (fuel : Nat) (pkg : Package) :
    prepare_requirements cx fuel pkg =
      (prepare_trace cx fuel pkg).map (fun tr => applyTrace [] tr) :=
  runChildren_eq_trace _ _ (fun p t r => build_eq_trace cx fuel p t _ [] r) (walkList pkg) []

/-! ### Lattice facts about `PlatformRequirement.combine` -/

theorem combine_self : ∀ a : PlatformRequirement, a.combine a = a := by
  intro a; cases a <;> rfl

theorem combine_ne : ∀ a b : PlatformRequirement, a ≠ b →
    a.combine b = PlatformRequirement.PluginAndTarget := by
  intro a b h
  cases a <;> cases b <;> first
    | exact absurd rfl h
    | rfl

theorem combine_absorb_right : ∀ x a y : PlatformRequirement,
    x.combine a = a → x.combine (a.combine y) = a.combine y := by
  intro x a y h
  cases x <;> cases a <;> cases y <;> first
    | decide
    | exact absurd h (by decide)

theorem combine_absorb_self : ∀ a acc : PlatformRequirement,
    a.combine (acc.combine a) = acc.combine a := by
  intro a acc
  cases a <;> cases acc <;> rfl

/-- Every element folded into a `combine` left-fold is absorbed by the
result (the fold is an upper bound). -/
theorem le_foldl : ∀ (l : List PlatformRequirement) (acc x : PlatformRequirement),
    (x.combine acc = acc ∨ x ∈ l) →
    x.combine (l.foldl PlatformRequirement.combine acc) =
      l.foldl PlatformRequirement.combine acc := by
  intro l
  induction l with
  | nil =>
    intro acc x h
    simp only [List.foldl_nil]
    exact h.resolve_right (by simp)
  | cons a l ih =>
    intro acc x h
    simp only [List.foldl_cons]
    rcases h with h | h
    · exact ih _ _ (Or.inl (combine_absorb_right x acc a h))
    · rcases List.mem_cons.mp h with h | h
      · subst h
        exact ih _ _ (Or.inl (combine_absorb_self x acc))
      · exact ih _ _ (Or.inr h)

/-- A list containing both `Target` and `Plugin` joins to
`PluginAndTarget`. -/
theorem joinL_both : ∀ (l : List PlatformRequirement) (j : PlatformRequirement),
    joinL l = some j → PlatformRequirement.Target ∈ l →
    PlatformRequirement.Plugin ∈ l → j = PlatformRequirement.PluginAndTarget := by
  intro l j hj hT hP
  match l, hj with
  | a :: rest, hj =>
    have hj' : j = rest.foldl PlatformRequirement.combine a := by
      simpa [joinL] using hj.symm
    have hmem : ∀ x : PlatformRequirement, x ∈ a :: rest → x.combine j = j := by
      intro x hx
      rw [hj']
      rcases List.mem_cons.mp hx with h | h
      · subst h
        exact le_foldl _ _ _ (Or.inl (combine_self x))
      · exact le_foldl _ _ _ (Or.inr h)
    have h1 := hmem _ hT
    have h2 := hmem _ hP
    cases j with
    | Target => exact absurd h2 (by decide)
    | Plugin => exact absurd h1 (by decide)
    | PluginAndTarget => rfl

theorem mem_occAt (k : ReqKey) (x : PlatformRequirement) (tr : Trace)
    (h : (k, x) ∈ tr) : x ∈ occAt k tr := by
  exact List.mem_filterMap.mpr ⟨(k, x), h, by simp⟩

/-! ### Termination of the requirement walk -/

theorem length_filter_mono {α : Type} (p q : α → Bool)
    (hmono : ∀ a, p a = true → q a = true) :
    ∀ l : List α, (l.filter p).length ≤ (l.filter q).length := by
  intro l
  induction l with
  | nil => exact Nat.le_refl 0
  | cons a l ih =>
    cases hp : p a with
    | true =>
      rw [List.filter_cons_of_pos hp, List.filter_cons_of_pos (hmono a hp)]
      simpa using ih
    | false =>
      rw [List.filter_cons_of_neg (by simp [hp])]
      cases hq : q a with
      | true =>
        rw [List.filter_cons_of_pos hq]
        exact Nat.le_succ_of_le ih
      | false =>
        rw [List.filter_cons_of_neg (by simp [hq])]
        exact ih

theorem length_filter_strict {α : Type} (p q : α → Bool)
    (hmono : ∀ a, p a = true → q a = true) :
    ∀ (l : List α) (x : α), x ∈ l → q x = true → p x = false →
      (l.filter p).length < (l.filter q).length := by
  intro l
  induction l with
  | nil => intro x hx _ _; exact absurd hx (List.not_mem_nil x)
  | cons a l ih =>
    intro x hx hqx hpx
    by_cases hax : q a = true ∧ p a = false
    · rw [List.filter_cons_of_neg (by simp [hax.2]), List.filter_cons_of_pos hax.1]
      exact Nat.lt_succ_of_le (length_filter_mono p q hmono l)
    · have hxl : x ∈ l := by
        rcases List.mem_cons.mp hx with h | h
        · subst h; exact absurd ⟨hqx, hpx⟩ hax
        · exact h
      cases hp : p a with
      | true =>
        rw [List.filter_cons_of_pos hp, List.filter_cons_of_pos (hmono a hp)]
        exact Nat.succ_lt_succ (ih x hxl hqx hpx)
      | false =>
        cases hq : q a with
        | true => exact absurd ⟨hq, hp⟩ hax
        | false =>
          rw [List.filter_cons_of_neg (by simp [hp]),
              List.filter_cons_of_neg (by simp [hq])]
          exact ih x hxl hqx hpx

theorem get_package_mem (cx : Context) (id : PackageId) (p : Package)
    (h : get_package cx id = some p) : p ∈ cx.package_set :=
  List.mem_of_find?_eq_some h

theorem get_packages_mem (cx : Context) : ∀ (ids : List PackageId) (ps : List Package),
    get_packages cx ids = some ps → ∀ p ∈ ps, p ∈ cx.package_set := by
  intro ids
  induction ids with
  | nil =>
    intro ps h p hp
    unfold get_packages at h
    cases h
    cases hp
  | cons i rest ih =>
    intro ps h p hp
    unfold get_packages at h
    cases hg : get_package cx i with
    | none =>
      simp only [hg] at h
      exact Option.noConfusion h
    | some q =>
      simp only [hg] at h
      cases hr : get_packages cx rest with
      | none =>
        simp only [hr] at h
        exact Option.noConfusion h
      | some qs =>
        simp only [hr, Option.some.injEq] at h
        subst h
        rcases List.mem_cons.mp hp with h | h
        · subst h; exact get_package_mem cx i p hg
        · exact ih qs hr p h

/-- Every dependency pair yielded by `dep_targets` names a package of the
package set (it was looked up there). -/
theorem dep_targets_mem (cx : Context) (pkg : Package) (l : List (Package × Target))
    (h : dep_targets cx pkg = some l) :
    ∀ pr ∈ l, pr.1 ∈ cx.package_set := by
  intro pr hpr
  unfold dep_targets at h
  cases hres : cx.resolve pkg.pid with
  | none =>
    simp only [hres, Option.some.injEq] at h
    subst h
    exact absurd hpr (List.not_mem_nil pr)
  | some deps =>
    simp only [hres] at h
    cases hg : get_packages cx deps with
    | none =>
      simp only [hg] at h
      exact Option.noConfusion h
    | some pkgs =>
      simp only [hg, Option.some.injEq] at h
      subst h
      rcases List.mem_filterMap.mp hpr with ⟨p, hp, hf⟩
      have hp1 : pr.1 = p := by
        cases hft : p.targets.find? (fun t => is_relevant_target cx t) with
        | none => rw [hft] at hf; cases hf
        | some t => rw [hft] at hf; cases hf; rfl
      rw [hp1]
      exact get_packages_mem cx deps pkgs hg p hp

theorem runChildren_term
    (step : Package → Target → ReqMap → BuildRes ReqMap) :
    ∀ (deps : List (Package × Target)) (reqs : ReqMap),
      (∀ p t r, (p, t) ∈ deps → (step p t r).terminated = true) →
      (runChildren step deps reqs).terminated = true := by
  intro deps
  induction deps with
  | nil => intro reqs _; rfl
  | cons pt rest ih =>
    intro reqs h
    obtain ⟨p, t⟩ := pt
    simp only [runChildren]
    cases hs : step p t reqs with
    | ok reqs2 =>
      exact ih reqs2 (fun p' t' r' h' => h p' t' r' (List.mem_cons_of_mem _ h'))
    | panicked => rfl
    | fuelOut =>
      have hft := h p t reqs (List.mem_cons_self (p, t) rest)
      rw [hs] at hft
      exact absurd hft (by decide)

/-- Generalized termination invariant: if every reachable package id lies
in a fixed finite universe, the walk completes whenever the fuel exceeds
the number of universe ids not yet on the DFS path — each recursive
descent strictly shrinks that count, which is the well-foundedness of the
Rust recursion. -/
theorem build_requirements_term (cx : Context) (univ : List PackageId)
    (hU : ∀ q ∈ cx.package_set, q.pid ∈ univ) :
    ∀ (fuel : Nat) (pkg : Package) (target : Target) (req : PlatformRequirement)
      (visiting : List PackageId) (reqs : ReqMap),
      pkg.pid ∈ univ →
      (univ.filter (fun x => decide (x ∉ visiting))).length < fuel →
      (build_requirements cx fuel pkg target req visiting reqs).terminated = true := by
  intro fuel
  induction fuel with
  | zero =>
    intro pkg target req visiting reqs _ hlt
    exact absurd hlt (Nat.not_lt_zero _)
  | succ fuel ih =>
    intro pkg target req visiting reqs hmem hlt
    by_cases hv : pkg.pid ∈ visiting
    · simp [build_requirements, hv, BuildRes.terminated]
    · cases hd : dep_targets cx pkg with
      | none => simp [build_requirements, hv, hd, BuildRes.terminated]
      | some deps =>
        simp only [build_requirements, hv, if_false, hd]
        apply runChildren_term
        intro p t r hpt
        have hpmem : p.pid ∈ univ := hU p (dep_targets_mem cx pkg deps hd (p, t) hpt)
        apply ih p t _ _ r hpmem
        have hmono : ∀ a : PackageId,
            (fun x => decide (x ∉ pkg.pid :: visiting)) a = true →
            (fun x => decide (x ∉ visiting)) a = true := by
          intro a ha
          simp only [decide_eq_true_eq] at ha ⊢
          exact fun h2 => ha (List.mem_cons_of_mem _ h2)
        have hq : (fun x => decide (x ∉ visiting)) pkg.pid = true := by simp [hv]
        have hp : (fun x => decide (x ∉ pkg.pid :: visiting)) pkg.pid = false := by simp
        have hstrict := length_filter_strict _ _ hmono univ pkg.pid hmem hq hp
        exact Nat.lt_of_lt_of_le hstrict (Nat.lt_succ_iff.mp hlt)

/-- A successful walk never deletes a key from the requirements map. -/
theorem build_isSome_mono (cx : Context) (fuel : Nat) (p : Package) (t : Target)
    (r : PlatformRequirement) (v : List PackageId) (reqs m : ReqMap) (k : ReqKey)
    (h : build_requirements cx fuel p t r v reqs = BuildRes.ok m)
    (hs : (reqFind reqs k).isSome = true) : (reqFind m k).isSome = true := by
  rw [build_eq_trace] at h
  cases htr : req_trace cx fuel p t r v with
  | ok tr =>
    rw [htr] at h
    simp only [BuildRes.map] at h
    cases h
    rw [reqFind_applyTrace]
    cases hr : reqFind reqs k with
    | none => rw [hr] at hs; simp at hs
    | some w => simp only [hr]; simp
  | panicked => rw [htr] at h; simp [BuildRes.map] at h
  | fuelOut => rw [htr] at h; simp [BuildRes.map] at h

theorem runChildren_isSome_mono
    (step : Package → Target → ReqMap → BuildRes ReqMap)
    (hstep : ∀ p t r m k, step p t r = BuildRes.ok m →
      (reqFind r k).isSome = true → (reqFind m k).isSome = true) :
    ∀ (deps : List (Package × Target)) (reqs m : ReqMap) (k : ReqKey),
      runChildren step deps reqs = BuildRes.ok m →
      (reqFind reqs k).isSome = true → (reqFind m k).isSome = true := by
  intro deps
  induction deps with
  | nil =>
    intro reqs m k h hs
    simp only [runChildren] at h
    cases h
    exact hs
  | cons pt rest ih =>
    intro reqs m k h hs
    obtain ⟨p, t⟩ := pt
    simp only [runChildren] at h
    cases h1 : step p t reqs with
    | ok reqs2 =>
      simp only [h1] at h
      exact ih reqs2 m k h (hstep p t reqs reqs2 k h1 hs)
    | panicked => simp only [h1] at h; exact BuildRes.noConfusion h
    | fuelOut => simp only [h1] at h; exact BuildRes.noConfusion h

theorem get_packages_length (cx : Context) : ∀ (ids : List PackageId) (ps : List Package),
    get_packages cx ids = some ps → ps.length = ids.length := by
  intro ids
  induction ids with
  | nil =>
    intro ps h
    unfold get_packages at h
    cases h
    rfl
  | cons i rest ih =>
    intro ps h
    unfold get_packages at h
    cases hg : get_package cx i with
    | none => simp only [hg] at h; exact Option.noConfusion h
    | some q =>
      simp only [hg] at h
      cases hr : get_packages cx rest with
      | none => simp only [hr] at h; exact Option.noConfusion h
      | some qs =>
        simp only [hr, Option.some.injEq] at h
        subst h
        simp [ih qs hr]

/-- Lemma: `find?` returns the first element satisfying the predicate: everything
before it in the list fails the predicate. -/
theorem find?_first {α : Type} (p : α → Bool) :
    ∀ (l : List α) (a : α), l.find? p = some a →
      ∃ pre post, l = pre ++ a :: post ∧ p a = true ∧ ∀ x ∈ pre, p x = false := by
  intro l
  induction l with
  | nil => intro a h; exact Option.noConfusion h
  | cons b l ih =>
    intro a h
    cases hb : p b with
    | true =>
      rw [List.find?_cons_of_pos _ hb] at h
      cases h
      exact ⟨[], l, rfl, hb, by intro x hx; cases hx⟩
    | false =>
      rw [List.find?_cons_of_neg _ (by simp [hb])] at h
      rcases ih a h with ⟨pre, post, heq, hpa, hpre⟩
      refine ⟨b :: pre, post, by rw [heq]; rfl, hpa, ?_⟩
      intro x hx
      rcases List.mem_cons.mp hx with hx | hx
      · subst hx; exact hb
      · exact hpre x hx

/-- Lemma: the input-scan loop succeeds exactly when every listed input
exists under the root with mtime at most the reference mtime. -/
theorem inputs_fresh_iff (fs : Fs) (root : String) (refMtime : Nat) :
    ∀ toks : List (List Char),
      inputs_fresh fs root refMtime toks = true ↔
      ∀ f ∈ toks, ∃ e, fs (pjoin root (String.mk f)) = some e ∧ entMtime e ≤ refMtime := by
  intro toks
  induction toks with
  | nil => simp [inputs_fresh]
  | cons f rest ih =>
    simp only [inputs_fresh]
    cases hf : fs (pjoin root (String.mk f)) with
    | none =>
      simp only [hf]
      constructor
      · intro h; exact Bool.noConfusion h
      · intro h
        rcases h f (List.mem_cons_self f rest) with ⟨e, he, _⟩
        rw [hf] at he
        exact Option.noConfusion he
    | some e =>
      simp only [hf]
      by_cases hm : entMtime e ≤ refMtime
      · rw [if_pos hm, ih]
        constructor
        · intro h g hg
          rcases List.mem_cons.mp hg with hg | hg
          · subst hg; exact ⟨e, hf, hm⟩
          · exact h g hg
        · intro h g hg
          exact h g (List.mem_cons_of_mem _ hg)
      · rw [if_neg hm]
        constructor
        · intro h; exact Bool.noConfusion h
        · intro h
          rcases h f (List.mem_cons_self f rest) with ⟨e2, he2, hm2⟩
          rw [hf] at he2
          cases he2
          exact absurd hm2 hm

/-- Lemma: a successful `is_fresh` returns true exactly when the file is
present, readable and its entire contents equal the new fingerprint. -/
theorem is_fresh_ok_iff (fs : Fs) (loc fp : String) (b : Bool)
    (h : is_fresh fs loc fp = CRes.ok b) :
    (b = true ↔ ∃ m, fs loc = some (FsEntry.fileOk fp m)) := by
  unfold is_fresh at h
  cases hfs : fs loc with
  | none =>
    simp only [hfs, CRes.ok.injEq] at h
    subst h
    simp [hfs]
  | some e =>
    cases e with
    | fileOk c m =>
      simp only [hfs, CRes.ok.injEq] at h
      subst h
      constructor
      · intro hc
        simp only [decide_eq_true_eq] at hc
        exact ⟨m, by rw [hc]⟩
      · intro h2
        obtain ⟨m2, hm2⟩ := h2
        simp only [Option.some.injEq, FsEntry.fileOk.injEq] at hm2
        simp [hm2.1]
    | fileBad m =>
      simp only [hfs] at h
      exact CRes.noConfusion h
    | dirE =>
      simp only [hfs] at h
      exact CRes.noConfusion h

/-- Lemma: for a non-doc target the fingerprint covers exactly
`(rustc_version, target)`. -/
theorem rustc_fp_nondoc (cx : Context) (pkg : Package) (target : Target)
    (hdoc : target.profile.is_doc = false) :
    rustc_fingerprint_for cx pkg target =
      CRes.ok (mk_fingerprint cx (HashInput.targetOnly target)) := by
  simp [rustc_fingerprint_for, hdoc]

/-- Lemma: for a doc target the fingerprint covers the target together
with the package source fingerprint. -/
theorem rustc_fp_doc (cx : Context) (pkg : Package) (target : Target) (fp : String)
    (hdoc : target.profile.is_doc = true)
    (h : rustc_fingerprint_for cx pkg target = CRes.ok fp) :
    ∃ pf, calculate_pkg_fingerprint cx pkg = CRes.ok pf ∧
      fp = mk_fingerprint cx (HashInput.targetPkg target pf) := by
  unfold rustc_fingerprint_for at h
  simp only [hdoc, if_true] at h
  cases hpf : calculate_pkg_fingerprint cx pkg with
  | ok pf =>
    simp only [hpf, CRes.ok.injEq] at h
    exact ⟨pf, rfl, h.symm⟩
  | err e =>
    simp only [hpf] at h
    exact CRes.noConfusion h

/-! ### Claim theorems -/

/-- C2: after `prepare()` completes, every pair present in the requirements
map holds exactly the lattice join of the effective requirements over all
DFS entry paths reaching it (the events of the walk's trace); the join of
equal values is that value and of distinct values is `PluginAndTarget`,
so a pair reached on both a Target-classified and a Plugin-classified
path is recorded as `PluginAndTarget`. -/
theorem claim_C2 (cx : Context) (fuel : Nat) (pkg : Package) (m : ReqMap) (tr : Trace)
    (hm : prepare_requirements cx fuel pkg = BuildRes.ok m)
    (ht : prepare_trace cx fuel pkg = BuildRes.ok tr) :
    (∀ k : ReqKey, reqFind m k = joinL (occAt k tr)) ∧
    (∀ k : ReqKey, (k, PlatformRequirement.Target) ∈ tr →
      (k, PlatformRequirement.Plugin) ∈ tr →
      reqFind m k = some PlatformRequirement.PluginAndTarget) ∧
    (∀ a : PlatformRequirement, a.combine a = a) ∧
    (∀ a b : PlatformRequirement, a ≠ b →
      a.combine b = PlatformRequirement.PluginAndTarget) := by
  have hcorr := prepare_eq_trace cx fuel pkg
  rw [hm, ht] at hcorr
  simp only [BuildRes.map] at hcorr
  have hmtr : m = applyTrace [] tr := by cases hcorr; rfl
  have hjoin : ∀ k : ReqKey, reqFind m k = joinL (occAt k tr) := by
    intro k
    have h0 : reqFind ([] : ReqMap) k = none := rfl
    rw [hmtr, reqFind_applyTrace, h0]
  refine ⟨hjoin, ?_, combine_self, combine_ne⟩
  intro k hT hP
  have h1 := hjoin k
  cases hj : joinL (occAt k tr) with
  | none =>
    have hTocc := mem_occAt k _ tr hT
    cases hocc : occAt k tr with
    | nil => rw [hocc] at hTocc; exact absurd hTocc (List.not_mem_nil _)
    | cons a rest => rw [hocc] at hj; simp [joinL] at hj
  | some j =>
    have hj2 := joinL_both _ j hj (mem_occAt k _ tr hT) (mem_occAt k _ tr hP)
    rw [h1, hj, hj2]

/-- Witness for C2 on the plugin-diamond fixture: `u` is reached on a
Target path (directly from `a`) and a Plugin path (through plugin `p`),
and the map records the join `PluginAndTarget` for it. -/
theorem claim_C2_witness :
    reqFind mW (pidU, "u") = joinL (occAt (pidU, "u") trW) ∧
    reqFind mW (pidU, "u") = some PlatformRequirement.PluginAndTarget := by
  have h := claim_C2 cxW 5 pkgA mW trW (by decide) (by decide)
  exact ⟨h.1 (pidU, "u"), h.2.1 (pidU, "u") (by decide) (by decide)⟩

/-- C3 counterexample: the visitor set is keyed by package id, not by the
`(package, target)` pair.  In the two-package cycle `a3 ⇄ b3`, the walk
from `(a3, abin)` reaches the distinct pair `(a3, alib)` (it is the
dependency target `b3` yields), yet the finished walk's map has no entry
for `(a3, alib)` — the second target of `a3` was not processed, refuting
the claim at this input. -/
theorem claim_C3_counterexample :
    dep_targets cx3 pkgB3 = some [(pkgA3, tALib)] ∧
    build_requirements cx3 4 pkgA3 tBin PlatformRequirement.Target [] [] =
      BuildRes.ok m3 ∧
    reqFind m3 (pidA3, "alib") = none := by
  refine ⟨by decide, by decide, by decide⟩

/-- C3 (amended): the cycle-guard visitor set is keyed by package id and is
fresh per top-level walk: whenever the visited package is already on the
current DFS path the walk returns immediately without touching the map —
for any target of that package, so a second distinct target of the same
package reached on one DFS path is skipped, not processed; otherwise the
pair is processed and ends up in the map. -/
theorem claim_C3 (fuel : Nat) (cx : Context) (pkg : Package) (target : Target)
    (req : PlatformRequirement) (visiting : List PackageId) (reqs : ReqMap) :
    (pkg.pid ∈ visiting →
      build_requirements cx (fuel + 1) pkg target req visiting reqs = BuildRes.ok reqs) ∧
    (pkg.pid ∉ visiting → ∀ m : ReqMap,
      build_requirements cx (fuel + 1) pkg target req visiting reqs = BuildRes.ok m →
      (reqFind m (pkg.pid, target.name)).isSome = true) := by
  constructor
  · intro hv
    simp [build_requirements, hv]
  · intro hv m hm
    simp only [build_requirements, hv, if_false] at hm
    cases hd : dep_targets cx pkg with
    | none => simp only [hd] at hm; exact BuildRes.noConfusion hm
    | some deps =>
      simp only [hd] at hm
      refine runChildren_isSome_mono _ ?_ deps _ m (pkg.pid, target.name) hm ?_
      · intro p t r m' k h hs
        exact build_isSome_mono cx fuel p t _ _ r m' k h hs
      · rw [reqFind_insert, if_pos rfl]
        simp

/-- Witness for C3 (amended): on the cycle fixture, revisiting `a3` (at its
other target `alib`) returns the map unchanged, while the originally
processed pair `(a3, abin)` is present in the finished map. -/
theorem claim_C3_witness :
    build_requirements cx3 1 pkgA3 tALib PlatformRequirement.Target [pidA3] [] =
      BuildRes.ok [] ∧
    (reqFind m3 (pidA3, "abin")).isSome = true := by
  constructor
  · exact (claim_C3 0 cx3 pkgA3 tALib PlatformRequirement.Target [pidA3] []).1 (by decide)
  · exact (claim_C3 3 cx3 pkgA3 tBin PlatformRequirement.Target [] []).2 (by decide)
      m3 (by decide)

/-- C4: `build_requirements` terminates on every resolved dependency graph,
including graphs with cycles (also cycles through distinct
`(package, target)` pairs): with fuel exceeding the number of distinct
package ids in play, the walk never exhausts its fuel — each recursive
descent strictly grows the visiting set, which is bounded by the finite
package set. -/
theorem claim_C4 (cx : Context) (pkg : Package) (target : Target)
    (req : PlatformRequirement) (reqs : ReqMap) :
    (build_requirements cx
      ((pkg.pid :: cx.package_set.map Package.pid).dedup.length + 1)
      pkg target req [] reqs).terminated = true := by
  have hU : ∀ q ∈ cx.package_set,
      q.pid ∈ (pkg.pid :: cx.package_set.map Package.pid).dedup :=
    fun q hq => List.mem_dedup.mpr
      (List.mem_cons_of_mem _ (List.mem_map_of_mem Package.pid hq))
  have hmem : pkg.pid ∈ (pkg.pid :: cx.package_set.map Package.pid).dedup :=
    List.mem_dedup.mpr (List.mem_cons_self _ _)
  apply build_requirements_term cx _ hU _ pkg target req [] reqs hmem
  have hfil : ((pkg.pid :: cx.package_set.map Package.pid).dedup.filter
      (fun x => decide (x ∉ ([] : List PackageId)))) =
      (pkg.pid :: cx.package_set.map Package.pid).dedup := by
    apply List.filter_eq_self.mpr
    intro a _
    simp
  rw [hfil]
  exact Nat.lt_succ_self _

/-- C10: a package whose id the resolver does not know yields the empty
dependency list silently (`dep_targets` returns `Ok`-empty, no error, no
panic), so a walk over it records a requirements entry only for its own
target and never descends; by contrast, looking a package id up in the
package set panics (modelled as `none`) when it is absent. -/
theorem claim_C10 (cx : Context) (pkg : Package)
    (hres : cx.resolve pkg.pid = none) :
    dep_targets cx pkg = some [] ∧
    (∀ id : PackageId, (∀ p ∈ cx.package_set, p.pid ≠ id) → get_package cx id = none) ∧
    (∀ (fuel : Nat) (target : Target) (req : PlatformRequirement)
        (visiting : List PackageId) (reqs : ReqMap), pkg.pid ∉ visiting →
      build_requirements cx (fuel + 1) pkg target req visiting reqs =
        BuildRes.ok (insert_or_update reqs (pkg.pid, target.name)
          (if target.profile.is_plugin then PlatformRequirement.Plugin else req))) := by
  have hd : dep_targets cx pkg = some [] := by
    unfold dep_targets
    rw [hres]
  refine ⟨hd, ?_, ?_⟩
  · intro id hall
    unfold get_package
    apply List.find?_eq_none.mpr
    intro p hp
    simp only [decide_eq_true_eq]
    exact fun h => hall p hp h.symm
  · intro fuel target req visiting reqs hv
    simp only [build_requirements, hv, if_false, hd]
    rfl

/-- C5: `target_filenames`: a bin or test-profile target yields exactly
`[stem ++ exe_suffix]`; otherwise a dylib target contributes
`prefix ++ stem ++ suffix` with the host dylib pair when its profile is
plugin and the target pair otherwise, an rlib target additionally
contributes `lib<stem>.rlib`, and the two coexist for a dylib+rlib
target; the result is never the empty list — an empty result is the fatal
`assert!` (modelled as `none`), which happens exactly when no
classification applies. -/
theorem claim_C5 (cx : Context) (t : Target) :
    ((t.is_bin || t.profile.is_test) = true →
      target_filenames cx t = some [t.file_stem ++ cx.target_exe]) ∧
    ((t.is_bin || t.profile.is_test) = false → t.is_dylib = true → t.is_rlib = true →
      target_filenames cx t = some
        [(cx.dylib (if t.profile.is_plugin then Kind.KindPlugin else Kind.KindTarget)).1 ++
           t.file_stem ++
           (cx.dylib (if t.profile.is_plugin then Kind.KindPlugin else Kind.KindTarget)).2,
         "lib" ++ t.file_stem ++ ".rlib"]) ∧
    ((t.is_bin || t.profile.is_test) = false → t.is_dylib = true → t.is_rlib = false →
      target_filenames cx t = some
        [(cx.dylib (if t.profile.is_plugin then Kind.KindPlugin else Kind.KindTarget)).1 ++
           t.file_stem ++
           (cx.dylib (if t.profile.is_plugin then Kind.KindPlugin else Kind.KindTarget)).2]) ∧
    ((t.is_bin || t.profile.is_test) = false → t.is_dylib = false → t.is_rlib = true →
      target_filenames cx t = some ["lib" ++ t.file_stem ++ ".rlib"]) ∧
    (∀ l : List String, target_filenames cx t = some l → l ≠ []) ∧
    (target_filenames cx t = none ↔
      ((t.is_bin || t.profile.is_test) = false ∧ t.is_dylib = false ∧
        t.is_rlib = false)) := by
  cases hbt : (t.is_bin || t.profile.is_test) <;>
    cases hd : t.is_dylib <;>
      cases hr : t.is_rlib <;>
        simp [target_filenames, hbt, hd, hr]

/-- Witness for C5: the bin target yields the single exe name, and a
rlib-only lib target yields the single rlib name. -/
theorem claim_C5_witness :
    target_filenames cxW tBin = some [tBin.file_stem ++ cxW.target_exe] ∧
    target_filenames cxW tP =
      some [(cxW.dylib (if tP.profile.is_plugin then Kind.KindPlugin
                        else Kind.KindTarget)).1 ++
            tP.file_stem ++
            (cxW.dylib (if tP.profile.is_plugin then Kind.KindPlugin
                        else Kind.KindTarget)).2] := by
  constructor
  · exact (claim_C5 cxW tBin).1 (by decide)
  · exact (claim_C5 cxW tP).2.2.1 (by decide) (by decide) (by decide)

/-- C6: `dep_targets` yields at most one target per direct dependency
package: the first declared target satisfying `is_relevant_target`, i.e.
lib-ness plus the env rule (env `doc` or `test` require `is_compile`,
`doc-all` requires `is_compile` or `is_doc`, any other env requires the
profile env tag to equal the context env); a dependency with no such
target is silently skipped and contributes nothing. -/
theorem claim_C6 (cx : Context) (pkg : Package) (depIds : List PackageId)
    (l : List (Package × Target))
    (hres : cx.resolve pkg.pid = some depIds)
    (h : dep_targets cx pkg = some l) :
    l.length ≤ depIds.length ∧
    (∀ pr ∈ l, ∃ pre post, pr.1.targets = pre ++ pr.2 :: post ∧
      is_relevant_target cx pr.2 = true ∧
      ∀ t2 ∈ pre, is_relevant_target cx t2 = false) ∧
    (∀ p : Package, (∀ t2 ∈ p.targets, is_relevant_target cx t2 = false) →
      ∀ t2 : Target, (p, t2) ∉ l) ∧
    (∀ t2 : Target, is_relevant_target cx t2 = true ↔
      (t2.is_lib = true ∧
        ((cx.env = "doc" ∨ cx.env = "test") → t2.profile.is_compile = true) ∧
        (cx.env = "doc-all" →
          (t2.profile.is_compile = true ∨ t2.profile.is_doc = true)) ∧
        (cx.env ≠ "doc" → cx.env ≠ "test" → cx.env ≠ "doc-all" →
          t2.profile.env = cx.env))) := by
  unfold dep_targets at h
  simp only [hres] at h
  cases hg : get_packages cx depIds with
  | none =>
    simp only [hg] at h
    exact Option.noConfusion h
  | some pkgs =>
    simp only [hg, Option.some.injEq] at h
    subst h
    refine ⟨?_, ?_, ?_, ?_⟩
    · exact Nat.le_trans (List.length_filterMap_le _ pkgs)
        (Nat.le_of_eq (get_packages_length cx depIds pkgs hg))
    · intro pr hpr
      rcases List.mem_filterMap.mp hpr with ⟨p, hp, hf⟩
      cases hft : p.targets.find? (fun t2 => is_relevant_target cx t2) with
      | none => rw [hft] at hf; exact Option.noConfusion hf
      | some t3 =>
        rw [hft] at hf
        cases hf
        rcases find?_first _ p.targets t3 hft with ⟨pre, post, heq, hrel, hpre⟩
        exact ⟨pre, post, heq, by simpa using hrel,
          fun t2 ht2 => by simpa using hpre t2 ht2⟩
    · intro p hall t2 hmem
      rcases List.mem_filterMap.mp hmem with ⟨q, hq, hf⟩
      cases hft : q.targets.find? (fun t3 => is_relevant_target cx t3) with
      | none => rw [hft] at hf; exact Option.noConfusion hf
      | some t3 =>
        rw [hft] at hf
        simp only [Option.map_some', Option.some.injEq, Prod.mk.injEq] at hf
        obtain ⟨hqp, ht32⟩ := hf
        have hrel : is_relevant_target cx t3 = true := by
          simpa using List.find?_some hft
        have hmem3 : t3 ∈ q.targets := List.mem_of_find?_eq_some hft
        rw [hqp] at hmem3
        have hfalse := hall t3 hmem3
        rw [hrel] at hfalse
        exact Bool.noConfusion hfalse
    · intro t2
      by_cases h1 : cx.env = "doc"
      · simp [is_relevant_target, h1]
      · by_cases h2 : cx.env = "test"
        · simp [is_relevant_target, h2]
        · by_cases h3 : cx.env = "doc-all"
          · simp [is_relevant_target, h3]
          · simp [is_relevant_target, h1, h2, h3]

/-- Witness for C6 on the plugin-diamond fixture: package `a`'s two
dependencies each contribute their first relevant target. -/
theorem claim_C6_witness :
    dep_targets cxW pkgA = some [(pkgP, tP), (pkgU, tU)] ∧
    [(pkgP, tP), (pkgU, tU)].length ≤ [pidP, pidU].length ∧
    is_relevant_target cxW tP = true := by
  refine ⟨by decide, ?_, ?_⟩
  · exact (claim_C6 cxW pkgA [pidP, pidU] [(pkgP, tP), (pkgU, tU)]
      (by decide) (by decide)).1
  · exact ((claim_C6 cxW pkgA [pidP, pidU] [(pkgP, tP), (pkgU, tU)]
      (by decide) (by decide)).2.2.2 tP).mpr (by decide)

/-- C1: `prepare_target` returns `Fresh` iff (1) the fingerprint file at
the OLD layout location exists, is readable and its entire contents equal
the newly computed lowercase-hex fingerprint, and (2) either the target's
profile is doc — the files check is then unconditionally true and the
fingerprint covers the target together with the package source
fingerprint — or `calculate_target_fresh` on the OLD dep-info path
returns true; for a non-doc target the fingerprint covers
`(rustc_version, target)` alone. -/
theorem claim_C1 (cx : Context) (fs : Fs) (pkg : Package) (target : Target) (kind : Kind)
    (hok : (prepare_target cx fs pkg target kind).isOk = true) :
    (freshOf (prepare_target cx fs pkg target kind) = some Freshness.Fresh ↔
      ((∃ fp m, rustc_fingerprint_for cx pkg target = CRes.ok fp ∧
          fs (pjoin (dirs cx pkg kind).1 (filename target)) =
            some (FsEntry.fileOk fp m)) ∧
       (target.profile.is_doc = true ∨
         calculate_target_fresh fs pkg (dep_info_loc cx pkg target kind).1 =
           CRes.ok true))) ∧
    (target.profile.is_doc = false →
      rustc_fingerprint_for cx pkg target =
        CRes.ok (mk_fingerprint cx (HashInput.targetOnly target))) ∧
    (target.profile.is_doc = true →
      ∃ pf, calculate_pkg_fingerprint cx pkg = CRes.ok pf ∧
        rustc_fingerprint_for cx pkg target =
          CRes.ok (mk_fingerprint cx (HashInput.targetPkg target pf))) := by
  refine ⟨?_, fun hdoc => rustc_fp_nondoc cx pkg target hdoc, ?_⟩
  · cases hdoc : target.profile.is_doc with
    | true =>
      cases hfp : rustc_fingerprint_for cx pkg target with
      | err e => simp [prepare_target, hdoc, hfp, CRes.isOk] at hok
      | ok fpv =>
        cases hif : is_fresh fs (pjoin (dirs cx pkg kind).1 (filename target)) fpv with
        | err e => simp [prepare_target, hdoc, hfp, hif, CRes.isOk] at hok
        | ok b =>
          have hiff := is_fresh_ok_iff fs _ fpv b hif
          have hEx : (∃ fp m, CRes.ok fpv = CRes.ok fp ∧
              fs (pjoin (dirs cx pkg kind).1 (filename target)) =
                some (FsEntry.fileOk fp m)) ↔ b = true := by
            constructor
            · rintro ⟨fp, m, hfpe, hfse⟩
              cases hfpe
              exact hiff.mpr ⟨m, hfse⟩
            · intro hb
              rcases hiff.mp hb with ⟨m, hm⟩
              exact ⟨fpv, m, rfl, hm⟩
          simp only [prepare_target, hdoc, hfp, hif]
          rw [hEx]
          cases b <;> simp [freshOf, prepare]
    | false =>
      have hfp := rustc_fp_nondoc cx pkg target hdoc
      cases hcalc : calculate_target_fresh fs pkg (dep_info_loc cx pkg target kind).1 with
      | err e => simp [prepare_target, hdoc, hcalc, CRes.isOk] at hok
      | ok af =>
        cases hif : is_fresh fs (pjoin (dirs cx pkg kind).1 (filename target))
            (mk_fingerprint cx (HashInput.targetOnly target)) with
        | err e => simp [prepare_target, hdoc, hcalc, hfp, hif, CRes.isOk] at hok
        | ok b =>
          cases htf : target_filenames cx target with
          | none => simp [prepare_target, hdoc, hcalc, hfp, hif, htf, CRes.isOk] at hok
          | some names =>
            have hiff := is_fresh_ok_iff fs _ _ b hif
            have hEx : (∃ fp m,
                CRes.ok (mk_fingerprint cx (HashInput.targetOnly target)) = CRes.ok fp ∧
                fs (pjoin (dirs cx pkg kind).1 (filename target)) =
                  some (FsEntry.fileOk fp m)) ↔ b = true := by
              constructor
              · rintro ⟨fp, m, hfpe, hfse⟩
                cases hfpe
                exact hiff.mpr ⟨m, hfse⟩
              · intro hb
                rcases hiff.mp hb with ⟨m, hm⟩
                exact ⟨mk_fingerprint cx (HashInput.targetOnly target), m, rfl, hm⟩
            simp only [prepare_target, hdoc, hcalc, hfp, hif, htf]
            rw [hEx]
            cases b <;> cases af <;> simp [freshOf, prepare]
  · intro hdoc
    cases hfp : rustc_fingerprint_for cx pkg target with
    | ok fpv =>
      rcases rustc_fp_doc cx pkg target fpv hdoc hfp with ⟨pf, hpf, hfpv⟩
      exact ⟨pf, hpf, by rw [hfpv]⟩
    | err e => simp [prepare_target, hdoc, hfp, CRes.isOk] at hok

/-- Witness for C1 on the doc target: the old fingerprint file holds the
newly computed fingerprint, so the target is `Fresh`, and the doc
fingerprint covers the package source fingerprint. -/
theorem claim_C1_witness :
    (freshOf (prepare_target cxW fs1 pkgDoc tDoc Kind.KindTarget) = some Freshness.Fresh ↔
      ((∃ fp m, rustc_fingerprint_for cxW pkgDoc tDoc = CRes.ok fp ∧
          fs1 (pjoin (dirs cxW pkgDoc Kind.KindTarget).1 (filename tDoc)) =
            some (FsEntry.fileOk fp m)) ∧
       (tDoc.profile.is_doc = true ∨
         calculate_target_fresh fs1 pkgDoc (dep_info_loc cxW pkgDoc tDoc Kind.KindTarget).1 =
           CRes.ok true))) ∧
    (tDoc.profile.is_doc = true →
      ∃ pf, calculate_pkg_fingerprint cxW pkgDoc = CRes.ok pf ∧
        rustc_fingerprint_for cxW pkgDoc tDoc =
          CRes.ok (mk_fingerprint cxW (HashInput.targetPkg tDoc pf))) := by
  have h := claim_C1 cxW fs1 pkgDoc tDoc Kind.KindTarget (by decide)
  exact ⟨h.1, h.2.2⟩

/-- C7: `calculate_target_fresh`\n\n returns false when the dep-info file is
absent or its first line is unreadable (an I/O error or an empty file);
with a readable first line lacking the `": "` separator it returns an
internal error; otherwise it returns `Ok` of the input scan: false as
soon as a listed input under `pkg.root()` is missing or strictly newer
than the dep-info file, true exactly when every listed input exists with
mtime at most the dep-info's mtime. -/
theorem claim_C7 (fs : Fs) (pkg : Package) (dep_info : String) :
    (fs dep_info = none → calculate_target_fresh fs pkg dep_info = CRes.ok false) ∧
    (∀ m, fs dep_info = some (FsEntry.fileBad m) →
      calculate_target_fresh fs pkg dep_info = CRes.ok false) ∧
    (∀ c m, fs dep_info = some (FsEntry.fileOk c m) → firstLine c = none →
      calculate_target_fresh fs pkg dep_info = CRes.ok false) ∧
    (∀ c m line, fs dep_info = some (FsEntry.fileOk c m) → firstLine c = some line →
      afterSep line = none →
      calculate_target_fresh fs pkg dep_info =
        CRes.err (CargoErr.internal
          ("dep-info not in an understood format: " ++ dep_info))) ∧
    (∀ c m line deps, fs dep_info = some (FsEntry.fileOk c m) → firstLine c = some line →
      afterSep line = some deps →
      (calculate_target_fresh fs pkg dep_info =
        CRes.ok (inputs_fresh fs pkg.root m (depTokens deps)) ∧
       (inputs_fresh fs pkg.root m (depTokens deps) = true ↔
         ∀ f ∈ depTokens deps, ∃ e, fs (pjoin pkg.root (String.mk f)) = some e ∧
           entMtime e ≤ m))) := by
  refine ⟨?_, ?_, ?_, ?_, ?_⟩
  · intro h
    simp [calculate_target_fresh, h]
  · intro m h
    simp [calculate_target_fresh, h]
  · intro c m h hfl
    simp [calculate_target_fresh, h, hfl]
  · intro c m line h hfl hsep
    simp [calculate_target_fresh, h, hfl, hsep]
  · intro c m line deps h hfl hsep
    exact ⟨by simp [calculate_target_fresh, h, hfl, hsep],
      inputs_fresh_iff fs pkg.root m (depTokens deps)⟩

/-- Witness for C7: a dep-info listing inputs `a` and `b`; with `b` newer
than the dep-info the scan reports stale, with both inputs old enough the
result is fresh; a file-free path yields false. -/
theorem claim_C7_witness :
    calculate_target_fresh fs7 pkgU ("di") =
      CRes.ok (inputs_fresh fs7 pkgU.root 2 (depTokens ("a b").data)) ∧
    inputs_fresh fs7 pkgU.root 2 (depTokens ("a b").data) = false ∧
    calculate_target_fresh fs7b pkgU ("di") = CRes.ok true ∧
    calculate_target_fresh fs7 pkgU ("nofile") = CRes.ok false := by
  refine ⟨?_, by decide, by decide, ?_⟩
  · exact ((claim_C7 fs7 pkgU ("di")).2.2.2.2 ("out: a b") 2 ("out: a b").data
      ("a b").data (by decide) (by decide) (by decide)).1
  · exact (claim_C7 fs7 pkgU ("nofile")).1 (by decide)

/-- C8 counterexample: an existing fingerprint file whose read fails is
not recovered as `Ok(false)` — the `try!` around `read_to_string`
propagates the I/O error to the caller, contrary to the claim. -/
theorem claim_C8_counterexample :
    is_fresh fs8 ("fp") ("aa") = CRes.err CargoErr.ioFail ∧
    is_fresh fs8 ("fp") ("aa") ≠ CRes.ok false := by
  exact ⟨by decide, by decide⟩

/-- C8 (amended): only a failed `File::open` (the file is missing or
inaccessible) is recovered locally as `Ok(false)`, so the target is
reported Dirty; a file that opens and reads yields the contents
comparison; a file that opens but whose read fails propagates the error
to the caller instead of yielding false. -/
theorem claim_C8 (fs : Fs) (loc fp : String) :
    (fs loc = none → is_fresh fs loc fp = CRes.ok false) ∧
    (∀ c m, fs loc = some (FsEntry.fileOk c m) →
      is_fresh fs loc fp = CRes.ok (decide (c = fp))) ∧
    (∀ m, fs loc = some (FsEntry.fileBad m) →
      is_fresh fs loc fp = CRes.err CargoErr.ioFail) := by
  refine ⟨?_, ?_, ?_⟩
  · intro h
    simp [is_fresh, h]
  · intro c m h
    simp [is_fresh, h]
  · intro m h
    simp [is_fresh, h]

/-- Witness for C8 (amended): a missing file yields `Ok(false)`, a
readable file yields the comparison, an unreadable file yields the
error. -/
theorem claim_C8_witness :
    is_fresh fs8 ("nofile") ("aa") = CRes.ok false ∧
    is_fresh fs7 ("di") ("zz") = CRes.ok (decide (("out: a b" : String) = "zz")) ∧
    is_fresh fs8 ("fp") ("aa") = CRes.err CargoErr.ioFail := by
  exact ⟨(claim_C8 fs8 ("nofile") ("aa")).1 (by decide),
    (claim_C8 fs7 ("di") ("zz")).2.1 ("out: a b") 2 (by decide),
    (claim_C8 fs8 ("fp") ("aa")).2.2 0 (by decide)⟩

/-- C9 counterexample: the two work units of `prepare_init` are identical,
but each performs a plain single-level `mkdir`, which fails when the
directory already exists — running a unit on a filesystem where the new
fingerprint directory is present errors instead of succeeding, so the
units are not idempotent (and not `mkdir -p`). -/
theorem claim_C9_counterexample :
    (prepare_init cxW pkgA Kind.KindTarget).1 = (prepare_init cxW pkgA Kind.KindTarget).2 ∧
    fs9 ((dirs cxW pkgA Kind.KindTarget).2) = some FsEntry.dirE ∧
    (runWork (prepare_init cxW pkgA Kind.KindTarget).1 fs9).isOk = false := by
  exact ⟨rfl, by decide, by decide⟩

/-- C9 (amended): `prepare_init` returns two identical units of work, each
a single-level non-recursive `mkdir` of the new fingerprint directory;
a unit succeeds only when the directory does not yet exist and its parent
directory does: it fails when the directory already exists (so the units
are not idempotent, and running both in order cannot both succeed) and
when the parent is missing (no `mkdir -p` recursion). -/
theorem claim_C9 (cx : Context) (pkg : Package) (kind : Kind) (fs : Fs) :
    (prepare_init cx pkg kind).1 = (prepare_init cx pkg kind).2 ∧
    (prepare_init cx pkg kind).1 = Work.Mkdir (dirs cx pkg kind).2 ∧
    (fs (dirs cx pkg kind).2 = none →
      fs (parentPath (dirs cx pkg kind).2) = some FsEntry.dirE →
      runWork (prepare_init cx pkg kind).1 fs =
        CRes.ok (fsUpdate fs (dirs cx pkg kind).2 FsEntry.dirE)) ∧
    ((fs (dirs cx pkg kind).2).isSome = true →
      (runWork (prepare_init cx pkg kind).1 fs).isOk = false) ∧
    (fs (dirs cx pkg kind).2 = none →
      fs (parentPath (dirs cx pkg kind).2) = none →
      (runWork (prepare_init cx pkg kind).1 fs).isOk = false) := by
  refine ⟨rfl, rfl, ?_, ?_, ?_⟩
  · intro h1 h2
    simp [runWork, prepare_init, fsMkdir, h1, h2]
  · intro h1
    cases he : fs (dirs cx pkg kind).2 with
    | none => rw [he] at h1; simp at h1
    | some e => simp [runWork, prepare_init, fsMkdir, he, CRes.isOk]
  · intro h1 h2
    simp [runWork, prepare_init, fsMkdir, h1, h2, CRes.isOk]

/-- Witness for C9 (amended): with only the parent present the unit
creates the directory; with the directory present the unit fails. -/
theorem claim_C9_witness :
    runWork (prepare_init cxW pkgA Kind.KindTarget).1 fs9p =
      CRes.ok (fsUpdate fs9p (dirs cxW pkgA Kind.KindTarget).2 FsEntry.dirE) ∧
    (runWork (prepare_init cxW pkgA Kind.KindTarget).1 fs9).isOk = false := by
  constructor
  · exact (claim_C9 cxW pkgA Kind.KindTarget fs9p).2.2.1 (by decide) (by decide)
  · exact (claim_C9 cxW pkgA Kind.KindTarget fs9).2.2.2.1 (by decide)

/-- Witness for C10: `lone` is unknown to `cxW`'s resolver; its walk adds
exactly its own entry, while a ghost id lookup in the package set is the
panic case. -/
theorem claim_C10_witness :
    dep_targets cxW pkgLone = some [] ∧
    get_package cxW ⟨"ghost", "1", 0⟩ = none ∧
    build_requirements cxW 1 pkgLone tU PlatformRequirement.Target [] [] =
      BuildRes.ok (insert_or_update [] (pkgLone.pid, "u") PlatformRequirement.Target) := by
  have h := claim_C10 cxW pkgLone (by decide)
  refine ⟨h.1, h.2.1 ⟨"ghost", "1", 0⟩ (by decide), ?_⟩
  have h3 := h.2.2 0 tU PlatformRequirement.Target [] [] (by decide)
  simpa using h3

end Cargo
